import Mathlib

/-!
Shallow embedding of `dur2work.py`: a script that resolves a (start,
destination) address pair to a stable integer route id in a SQLite table
`route`, and appends one traffic-aware duration sample per run to a table
`track_duration`.

The SQLite state is modelled as lists of rows; `COLLATE NOCASE` string
matching is modelled as equality of ASCII-lowercased character lists
(SQLite's NOCASE collation folds only ASCII `A`-`Z`); `SELECT MAX` is
modelled as an optional maximum over the id column; REAL columns are
modelled as rationals; the result of the external directions call is
modelled as a list of legs whose `duration_in_traffic` field is optional
(Python raises `KeyError` when the key is missing, modelled as an error
value).  The two `db_con.commit()` calls in the script give the sequence
of durably committed states, modelled by `runCommittedStates`.
-/

namespace Dur2work

/-- ASCII lower-casing of a single character, as performed by SQLite's
NOCASE collation: only `A`-`Z` are folded. -/
def asciiLower (c : Char) : Char :=
  if 'A' ≤ c ∧ c ≤ 'Z' then Char.ofNat (c.toNat + 32) else c

/-- Case-fold a string to the list of its ASCII-lowercased characters. -/
def foldCase (s : String) : List Char :=
  s.data.map asciiLower

/-- Model of `start = "..." COLLATE NOCASE` equality in the SELECT of
`dur2work.py` lines 158-161. -/
def nocaseEq (a b : String) : Bool :=
  decide (foldCase a = foldCase b)

/-- A row of the `route` table (line 145-149):
`(track_id INTEGER PRIMARY KEY, start TEXT, destination TEXT, duration REAL)`. -/
structure RouteRow where
  track_id : Int
  start : String
  destination : String
  duration : ℚ
deriving DecidableEq, Repr

/-- A row of the `track_duration` table (line 152-155):
`(track_id INTEGER, time REAL, duration_in_traffic REAL)`. -/
structure SampleRow where
  track_id : Int
  time : ℚ
  duration_in_traffic : ℚ
deriving DecidableEq, Repr

/-- The persistent SQLite database `dur.db`: both tables. -/
structure DB where
  route : List RouteRow
  track_duration : List SampleRow
deriving DecidableEq, Repr

/-- One leg of a directions result (`res[0]['legs'][0]`, lines 130-133).
`duration` is always present for a returned route; `duration_in_traffic`
may be absent from the upstream dictionary, modelled as `Option`. -/
structure Leg where
  duration : ℚ
  duration_in_traffic : Option ℚ
deriving DecidableEq, Repr

/-- The fatal conditions on which the script calls `exit()` (or Python
raises) before reaching the end of a run. -/
inductive RunError where
  | EmptyResultError
  | KeyError
  | DataIntegrityError
deriving DecidableEq, Repr

/-- Model of the SELECT at lines 158-161: all `route` rows whose start and
destination match the given pair under NOCASE collation. -/
def routeMatches (rs : List RouteRow) (s d : String) : List RouteRow :=
  rs.filter (fun r => nocaseEq r.start s && nocaseEq r.destination d)

/-- Optional maximum of a list of integers: model of the SQL aggregate
`SELECT MAX(track_id)` (line 172), which is NULL on an empty table. -/
def listMaxOpt : List Int → Option Int
  | [] => none
  | x :: xs =>
    match listMaxOpt xs with
    | none => some x
    | some m => some (max x m)

/-- `SELECT MAX(track_id) from route` (lines 172-173). -/
def maxTrackId (rs : List RouteRow) : Option Int :=
  listMaxOpt (rs.map (·.track_id))

/-- Lines 176-180: NULL maximum is replaced by `-1`, then incremented. -/
def nextTrackId (rs : List RouteRow) : Int :=
  (maxTrackId rs).getD (-1) + 1

/-- The INSERT INTO route at lines 183-184. -/
def insertRoute (db : DB) (tid : Int) (s d : String) (dur : ℚ) : DB :=
  { db with route := db.route ++ [⟨tid, s, d, dur⟩] }

/-- The route-resolution step, lines 158-193: look up the pair under
NOCASE; on zero matches allocate `max+1` (or `0` on an empty table) and
insert a new row holding the traffic-free duration; on exactly one match
reuse its id; on more than one match the script logs a database error and
exits. -/
def resolveRoute (db : DB) (s d : String) (fallback : ℚ) :
    Except RunError (Int × DB) :=
  match routeMatches db.route s d with
  | [] =>
    let tid := nextTrackId db.route
    .ok (tid, insertRoute db tid s d fallback)
  | [r] => .ok (r.track_id, db)
  | _ => .error .DataIntegrityError

/-- The INSERT INTO track_duration at lines 196-199: append one sample
row. -/
def record (db : DB) (tid : Int) (time : ℚ) (dit : ℚ) : DB :=
  { db with track_duration := db.track_duration ++ [⟨tid, time, dit⟩] }

/-- One full run of the script after the directions call, lines 124-200:
exit on an empty result; extract `duration_in_traffic` (a `KeyError` when
the key is absent) and `duration`; resolve the route; append one sample. -/
def runOnce (db : DB) (s d : String) (res : List Leg) (t : ℚ) :
    Except RunError DB :=
  match res with
  | [] => .error .EmptyResultError
  | leg :: _ =>
    match leg.duration_in_traffic with
    | none => .error .KeyError
    | some dit =>
      match resolveRoute db s d leg.duration with
      | .error e => .error e
      | .ok (tid, db1) => .ok (record db1 tid t dit)

/-- The sequence of durably committed database states during one run, in
order.  The script calls `db_con.commit()` at line 185 (after the route
INSERT, only on the zero-match branch) and at line 200 (after the sample
INSERT); if the run dies at any point, the persistent state is the last
committed state reached so far. -/
def runCommittedStates (db : DB) (s d : String) (res : List Leg) (t : ℚ) :
    List DB :=
  match res with
  | [] => [db]
  | leg :: _ =>
    match leg.duration_in_traffic with
    | none => [db]
    | some dit =>
      match routeMatches db.route s d with
      | [] =>
        let tid := nextTrackId db.route
        let db1 := insertRoute db tid s d leg.duration
        [db, db1, record db1 tid t dit]
      | [r] => [db, record db r.track_id t dit]
      | _ => [db]

/-- Python's `int()` on a float truncates toward zero (line 118:
`departure_time=int(curr_time)`). -/
def pyInt (q : ℚ) : Int :=
  if 0 ≤ q then ⌊q⌋ else ⌈q⌉

/-- The request sent to the directions collaborator (lines 113-118): the
departure time is the integer truncation of the single `curr_time` value
computed at lines 104-108. -/
structure DirectionsRequest where
  origin : String
  destination : String
  departure_time : Int
deriving DecidableEq, Repr

/-- Build the directions request from the one per-run timestamp. -/
def mkDirectionsRequest (s d : String) (curr_time : ℚ) : DirectionsRequest :=
  ⟨s, d, pyInt curr_time⟩

/-- Two route rows collide when their (start, destination) pairs are equal
under NOCASE collation. -/
def sameRoutePair (r1 r2 : RouteRow) : Prop :=
  foldCase r1.start = foldCase r2.start ∧
  foldCase r1.destination = foldCase r2.destination

/-- The uniqueness invariant of the `route` table: at most one row per
case-insensitive (start, destination) pair. -/
def UniquePerPair (db : DB) : Prop :=
  db.route.Pairwise (fun r1 r2 => ¬ sameRoutePair r1 r2)

/-- Database states reachable from a fresh (empty) store by runs of the
script, including the states left behind by a run that dies between two
commits. -/
inductive Reachable : DB → Prop
  | empty : Reachable ⟨[], []⟩
  | step {db db' : DB} {s d : String} {res : List Leg} {t : ℚ} :
      Reachable db → db' ∈ runCommittedStates db s d res t → Reachable db'

instance {e a : Type} [DecidableEq e] [DecidableEq a] : DecidableEq (Except e a) :=
  fun x y =>
  match x, y with
  | .error u, .error v =>
    if h : u = v then isTrue (by rw [h]) else isFalse (by intro hc; cases hc; exact h rfl)
  | .ok u, .ok v =>
    if h : u = v then isTrue (by rw [h]) else isFalse (by intro hc; cases hc; exact h rfl)
  | .error _, .ok _ => isFalse (by intro hc; cases hc)
  | .ok _, .error _ => isFalse (by intro hc; cases hc)

theorem nocaseEq_iff {a b : String} : nocaseEq a b = true ↔ foldCase a = foldCase b := by
  simp [nocaseEq]

theorem routeMatches_congr (rs : List RouteRow) {s s' d d' : String}
    (hs : foldCase s = foldCase s') (hd : foldCase d = foldCase d') :
    routeMatches rs s d = routeMatches rs s' d' := by
  unfold routeMatches
  apply List.filter_congr
  intro r _
  simp [nocaseEq, hs, hd]

theorem routeMatches_append (l1 l2 : List RouteRow) (s d : String) :
    routeMatches (l1 ++ l2) s d = routeMatches l1 s d ++ routeMatches l2 s d := by
  simp [routeMatches]

theorem listMaxOpt_eq_none {l : List Int} : listMaxOpt l = none ↔ l = [] := by
  cases l with
  | nil => simp [listMaxOpt]
  | cons x xs =>
    unfold listMaxOpt
    cases listMaxOpt xs <;> simp

theorem listMaxOpt_spec {l : List Int} {m : Int} (h : listMaxOpt l = some m) :
    m ∈ l ∧ ∀ x ∈ l, x ≤ m := by
  induction l generalizing m with
  | nil => simp [listMaxOpt] at h
  | cons x xs ih =>
    unfold listMaxOpt at h
    cases hxs : listMaxOpt xs with
    | none =>
      rw [hxs] at h
      have hx : x = m := by simpa using h
      have hempty : xs = [] := listMaxOpt_eq_none.mp hxs
      subst hx
      subst hempty
      simp
    | some m' =>
      rw [hxs] at h
      have hmax : max x m' = m := by simpa using h
      obtain ⟨hmem, hle⟩ := ih hxs
      constructor
      · rcases max_choice x m' with hc | hc
        · rw [← hmax, hc]; exact List.mem_cons_self x xs
        · rw [← hmax, hc]; exact List.mem_cons_of_mem x hmem
      · intro y hy
        rcases List.mem_cons.mp hy with hy | hy
        · subst hy; rw [← hmax]; exact le_max_left y m'
        · calc y ≤ m' := hle y hy
            _ ≤ max x m' := le_max_right x m'
            _ = m := hmax

theorem nextTrackId_empty : nextTrackId ([] : List RouteRow) = 0 := rfl

theorem nextTrackId_gt {rs : List RouteRow} : ∀ r ∈ rs, r.track_id < nextTrackId rs := by
  intro r hr
  unfold nextTrackId maxTrackId
  cases hm : listMaxOpt (rs.map (·.track_id)) with
  | none =>
    have : rs.map (·.track_id) = [] := listMaxOpt_eq_none.mp hm
    have : rs = [] := by simpa using this
    subst this
    simp at hr
  | some m =>
    have hle := (listMaxOpt_spec hm).2 r.track_id (List.mem_map_of_mem _ hr)
    simpa using lt_of_le_of_lt hle (by omega)

theorem nextTrackId_succ_max {rs : List RouteRow} (h : rs ≠ []) :
    ∃ r ∈ rs, nextTrackId rs = r.track_id + 1 ∧ ∀ r' ∈ rs, r'.track_id ≤ r.track_id := by
  cases hm : listMaxOpt (rs.map (·.track_id)) with
  | none =>
    have : rs.map (·.track_id) = [] := listMaxOpt_eq_none.mp hm
    have : rs = [] := by simpa using this
    exact absurd this h
  | some m =>
    obtain ⟨hmem, hle⟩ := listMaxOpt_spec hm
    obtain ⟨r, hr, hrid⟩ := List.mem_map.mp hmem
    refine ⟨r, hr, ?_, ?_⟩
    · unfold nextTrackId maxTrackId
      rw [hm, hrid]
      rfl
    · intro r' hr'
      rw [hrid]
      exact hle r'.track_id (List.mem_map_of_mem _ hr')

theorem resolveRoute_idem {db db1 : DB} {s d s' d' : String} {f f' : ℚ} {i : Int}
    (hs : nocaseEq s s' = true) (hd : nocaseEq d d' = true)
    (h : resolveRoute db s d f = .ok (i, db1)) :
    resolveRoute db1 s' d' f' = .ok (i, db1) := by
  have hs' := nocaseEq_iff.mp hs
  have hd' := nocaseEq_iff.mp hd
  unfold resolveRoute at h ⊢
  cases hm : routeMatches db.route s d with
  | nil =>
    rw [hm] at h
    simp only [Except.ok.injEq, Prod.mk.injEq] at h
    obtain ⟨hi, hdb⟩ := h
    have hroute : db1.route = db.route ++ [⟨nextTrackId db.route, s, d, f⟩] := by
      rw [← hdb]; rfl
    rw [hroute, routeMatches_append,
        ← routeMatches_congr db.route hs' hd', hm]
    have hone : routeMatches [(⟨nextTrackId db.route, s, d, f⟩ : RouteRow)] s' d' =
        [⟨nextTrackId db.route, s, d, f⟩] := by
      simp [routeMatches, nocaseEq, hs', hd']
    rw [hone]
    simp only [List.nil_append, Except.ok.injEq, Prod.mk.injEq]
    exact ⟨hi, trivial⟩
  | cons r rest =>
    cases rest with
    | nil =>
      rw [hm] at h
      simp only [Except.ok.injEq, Prod.mk.injEq] at h
      obtain ⟨hi, hdb⟩ := h
      subst hdb
      rw [← routeMatches_congr db.route hs' hd', hm]
      simp [hi]
    | cons r2 rest2 =>
      rw [hm] at h
      simp at h

theorem resolveRoute_track_duration {db db1 : DB} {s d : String} {f : ℚ} {i : Int}
    (h : resolveRoute db s d f = .ok (i, db1)) :
    db1.track_duration = db.track_duration := by
  unfold resolveRoute at h
  cases hm : routeMatches db.route s d with
  | nil =>
    rw [hm] at h
    simp only [Except.ok.injEq, Prod.mk.injEq] at h
    rw [← h.2]
    rfl
  | cons r rest =>
    cases rest with
    | nil =>
      rw [hm] at h
      simp only [Except.ok.injEq, Prod.mk.injEq] at h
      rw [← h.2]
    | cons r2 rest2 =>
      rw [hm] at h
      simp at h

theorem uniquePerPair_insert {db : DB} {s d : String} {f : ℚ} (tid : Int)
    (hu : UniquePerPair db) (hm : routeMatches db.route s d = []) :
    UniquePerPair (insertRoute db tid s d f) := by
  unfold UniquePerPair insertRoute at *
  rw [List.pairwise_append]
  refine ⟨hu, List.pairwise_singleton _ _, ?_⟩
  intro r hr r' hr'
  simp only [List.mem_singleton] at hr'
  subst hr'
  have hnotm := List.filter_eq_nil_iff.mp hm r hr
  intro hpair
  obtain ⟨h1, h2⟩ := hpair
  apply hnotm
  simp [nocaseEq, h1, h2]

theorem uniquePerPair_record {db : DB} {i : Int} {t v : ℚ}
    (hu : UniquePerPair db) : UniquePerPair (record db i t v) := hu

theorem uniquePerPair_committed {db db' : DB} {s d : String} {res : List Leg} {t : ℚ}
    (hu : UniquePerPair db) (h : db' ∈ runCommittedStates db s d res t) :
    UniquePerPair db' := by
  cases res with
  | nil =>
    simp only [runCommittedStates, List.mem_singleton] at h
    subst h; exact hu
  | cons leg rest =>
    simp only [runCommittedStates] at h
    cases hdit : leg.duration_in_traffic with
    | none =>
      rw [hdit] at h
      simp only [List.mem_singleton] at h
      subst h; exact hu
    | some dit =>
      rw [hdit] at h
      cases hm : routeMatches db.route s d with
      | nil =>
        rw [hm] at h
        simp only [List.mem_cons, List.mem_singleton, List.not_mem_nil, or_false] at h
        rcases h with h | h | h
        · subst h; exact hu
        · subst h; exact uniquePerPair_insert _ hu hm
        · subst h; exact uniquePerPair_record (uniquePerPair_insert _ hu hm)
      | cons r rest2 =>
        cases rest2 with
        | nil =>
          rw [hm] at h
          simp only [List.mem_cons, List.mem_singleton, List.not_mem_nil, or_false] at h
          rcases h with h | h
          · subst h; exact hu
          · subst h; exact uniquePerPair_record hu
        | cons r2 rest3 =>
          rw [hm] at h
          simp only [List.mem_singleton] at h
          subst h; exact hu

theorem reachable_uniquePerPair {db : DB} (h : Reachable db) : UniquePerPair db := by
  induction h with
  | empty => exact List.Pairwise.nil
  | step _ hmem ih => exact uniquePerPair_committed ih hmem

/-- C1 counterexample: when the upstream leg omits `duration_in_traffic`,
the run aborts with a `KeyError` (line 132 indexes the missing key) and no
sample is recorded — contradicting the claim that the absence is not an
error and that the sample is still recorded. -/
theorem C1_counterexample :
    runOnce ⟨[], []⟩ "Home" "Work" [⟨100, none⟩] 5 = .error .KeyError ∧
    runCommittedStates ⟨[], []⟩ "Home" "Work" [⟨100, none⟩] 5 = [⟨[], []⟩] :=
  ⟨by decide, by decide⟩

/-- C1 (amended): if the traffic-aware duration field is absent from the
first leg of the upstream result, the run aborts with a `KeyError` before
any store write; the absence IS an error for the run and no sample is
recorded. -/
theorem C1_missing_field_aborts (db : DB) (s d : String) (leg : Leg)
    (rest : List Leg) (t : ℚ) (h : leg.duration_in_traffic = none) :
    runOnce db s d (leg :: rest) t = .error .KeyError ∧
    runCommittedStates db s d (leg :: rest) t = [db] := by
  constructor
  · simp only [runOnce]
    rw [h]
  · simp only [runCommittedStates]
    rw [h]

/-- Witness for C1: the amended theorem applied to a concrete run. -/
theorem C1_missing_field_aborts_witness :
    runOnce ⟨[], []⟩ "A" "B" [⟨7, none⟩] 3 = .error .KeyError ∧
    runCommittedStates ⟨[], []⟩ "A" "B" [⟨7, none⟩] 3 = [⟨[], []⟩] :=
  C1_missing_field_aborts ⟨[], []⟩ "A" "B" ⟨7, none⟩ [] 3 rfl

/-- C2 counterexample: a run that creates a new route commits the Route
row (line 185) strictly before committing the sample row (line 200), so
the intermediate committed state — the second element of the committed
sequence — holds the new Route row but no new DurationSample row, and
differs both from the pre-run state and from the final state.  A failure
at that point leaves a partial subset committed, contradicting the claim.
-/
theorem C2_counterexample :
    runCommittedStates ⟨[], []⟩ "Home" "Work" [⟨100, some 200⟩] 5 =
      [⟨[], []⟩, ⟨[⟨0, "Home", "Work", 100⟩], []⟩,
       ⟨[⟨0, "Home", "Work", 100⟩], [⟨0, 5, 200⟩]⟩] ∧
    (⟨[⟨0, "Home", "Work", 100⟩], []⟩ : DB) ≠ ⟨[], []⟩ ∧
    (⟨[⟨0, "Home", "Work", 100⟩], []⟩ : DB) ≠
      ⟨[⟨0, "Home", "Work", 100⟩], [⟨0, 5, 200⟩]⟩ :=
  ⟨by decide, by decide, by decide⟩

/-- C2 (amended): every run that fails does so having committed nothing
beyond the pre-run state, and a run that succeeds on a known route is
all-or-nothing; but a successful run that creates a new route passes
through an intermediate committed state holding the new Route row and none
of the run's sample data, so a failure between the two commits leaves that
partial state behind. -/
theorem C2_commit_granularity (db : DB) (s d : String) (res : List Leg) (t : ℚ) :
    ((∃ e, runOnce db s d res t = .error e) →
      runCommittedStates db s d res t = [db]) ∧
    (∀ db', runOnce db s d res t = .ok db' →
      runCommittedStates db s d res t = [db, db'] ∨
      ∃ dbR, runCommittedStates db s d res t = [db, dbR, db'] ∧
        dbR.track_duration = db.track_duration ∧ dbR.route ≠ db.route) := by
  cases res with
  | nil =>
    refine ⟨fun _ => rfl, fun db' h => ?_⟩
    simp [runOnce] at h
  | cons leg rest =>
    cases hdit : leg.duration_in_traffic with
    | none =>
      constructor
      · intro _
        simp only [runCommittedStates]
        rw [hdit]
      · intro db' h
        simp only [runOnce] at h
        rw [hdit] at h
        simp at h
    | some dit =>
      cases hm : routeMatches db.route s d with
      | nil =>
        constructor
        · intro ⟨e, he⟩
          simp only [runOnce, resolveRoute] at he
          rw [hdit, hm] at he
          simp at he
        · intro db' h
          simp only [runOnce, resolveRoute] at h
          rw [hdit, hm] at h
          simp only [Except.ok.injEq] at h
          refine Or.inr ⟨insertRoute db (nextTrackId db.route) s d leg.duration, ?_, rfl, ?_⟩
          · simp only [runCommittedStates]
            rw [hdit, hm, ← h]
          · intro hc
            have := congrArg List.length hc
            simp [insertRoute] at this
      | cons r rest2 =>
        cases rest2 with
        | nil =>
          constructor
          · intro ⟨e, he⟩
            simp only [runOnce, resolveRoute] at he
            rw [hdit, hm] at he
            simp at he
          · intro db' h
            simp only [runOnce, resolveRoute] at h
            rw [hdit, hm] at h
            simp only [Except.ok.injEq] at h
            refine Or.inl ?_
            simp only [runCommittedStates]
            rw [hdit, hm, ← h]
        | cons r2 rest3 =>
          constructor
          · intro _
            simp only [runCommittedStates]
            rw [hdit, hm]
          · intro db' h
            simp only [runOnce, resolveRoute] at h
            rw [hdit, hm] at h
            simp at h

/-- Witness for C2: the amended theorem applied to a concrete failing run
(empty upstream result), whose committed sequence is the singleton pre-run
state. -/
theorem C2_commit_granularity_witness :
    runCommittedStates ⟨[], []⟩ "A" "B" [] 3 = [⟨[], []⟩] :=
  (C2_commit_granularity ⟨[], []⟩ "A" "B" [] 3).1 ⟨.EmptyResultError, rfl⟩

/-- C3: a second resolve call with a case-insensitively equal (start,
destination) pair returns the identical route id and leaves the store
unchanged (no second Route row), and every store state reachable from an
empty store — including the states left by a run dying between commits —
has at most one Route row per case-insensitive pair. -/
theorem C3_uniqueness :
    (∀ (db db1 : DB) (s d s' d' : String) (f f' : ℚ) (i : Int),
      nocaseEq s s' = true → nocaseEq d d' = true →
      resolveRoute db s d f = .ok (i, db1) →
      resolveRoute db1 s' d' f' = .ok (i, db1)) ∧
    (∀ db : DB, Reachable db → UniquePerPair db) :=
  ⟨fun _ _ _ _ _ _ _ _ _ hs hd h => resolveRoute_idem hs hd h,
   fun _ h => reachable_uniquePerPair h⟩

/-- Witness for C3: both parts of the theorem applied at concrete inputs:
a second resolve on a store holding ("Home", "Work") with differently
cased arguments returns id 0 and the unchanged store, and the empty store
satisfies the per-pair uniqueness invariant. -/
theorem C3_uniqueness_witness :
    resolveRoute ⟨[⟨0, "Home", "Work", 100⟩], []⟩ "HOME" "work" 7 =
      .ok (0, ⟨[⟨0, "Home", "Work", 100⟩], []⟩) ∧
    UniquePerPair ⟨[], []⟩ :=
  ⟨C3_uniqueness.1 ⟨[], []⟩ ⟨[⟨0, "Home", "Work", 100⟩], []⟩
      "Home" "Work" "HOME" "work" 100 7 0 (by decide) (by decide) (by decide),
   C3_uniqueness.2 ⟨[], []⟩ Reachable.empty⟩

/-- C4: with zero case-insensitive matches, resolve allocates the id
`(max existing id) + 1` — `0` when the route table is empty — persists
exactly one new Route row holding the traffic-free fallback duration, and
returns that id. -/
theorem C4_id_allocation (db : DB) (s d : String) (f : ℚ)
    (h : routeMatches db.route s d = []) :
    resolveRoute db s d f =
      .ok (nextTrackId db.route, insertRoute db (nextTrackId db.route) s d f) ∧
    (insertRoute db (nextTrackId db.route) s d f).route =
      db.route ++ [⟨nextTrackId db.route, s, d, f⟩] ∧
    (db.route = [] → nextTrackId db.route = 0) ∧
    (∀ r ∈ db.route, r.track_id < nextTrackId db.route) ∧
    (db.route ≠ [] → ∃ r ∈ db.route, nextTrackId db.route = r.track_id + 1 ∧
      ∀ r' ∈ db.route, r'.track_id ≤ r.track_id) := by
  refine ⟨?_, rfl, ?_, nextTrackId_gt, nextTrackId_succ_max⟩
  · unfold resolveRoute
    rw [h]
  · intro he
    rw [he]
    rfl

/-- Witness for C4: the theorem applied to a store holding one route with
id 0; resolving a fresh pair allocates id 1 and inserts the new row. -/
theorem C4_id_allocation_witness :
    resolveRoute ⟨[⟨0, "A", "B", 1⟩], []⟩ "C" "D" 9 =
      .ok (nextTrackId [⟨0, "A", "B", 1⟩],
           insertRoute ⟨[⟨0, "A", "B", 1⟩], []⟩ (nextTrackId [⟨0, "A", "B", 1⟩]) "C" "D" 9) :=
  (C4_id_allocation ⟨[⟨0, "A", "B", 1⟩], []⟩ "C" "D" 9 (by decide)).1

/-- C5: route matching is case-insensitive: after a resolve call returns
an id, a second resolve whose arguments differ from the first pair only up
to ASCII letter case returns the same id (and the same store). -/
theorem C5_case_insensitive (db db1 : DB) (s d S D : String) (f F : ℚ) (i : Int)
    (hs : nocaseEq s S = true) (hd : nocaseEq d D = true)
    (h : resolveRoute db s d f = .ok (i, db1)) :
    resolveRoute db1 S D F = .ok (i, db1) :=
  resolveRoute_idem hs hd h

/-- Witness for C5: resolve("A","B") on an empty store gives id 0, and the
theorem yields the same id 0 for resolve("a","b"). -/
theorem C5_case_insensitive_witness :
    resolveRoute ⟨[⟨0, "A", "B", 10⟩], []⟩ "a" "b" 20 =
      .ok (0, ⟨[⟨0, "A", "B", 10⟩], []⟩) :=
  C5_case_insensitive ⟨[], []⟩ ⟨[⟨0, "A", "B", 10⟩], []⟩ "A" "B" "a" "b" 10 20 0
    (by decide) (by decide) (by decide)

/-- C6: when the store holds more than one Route row matching the pair
case-insensitively, resolve signals `DataIntegrityError`, the run aborts,
and the committed state sequence is the singleton pre-run state: neither a
Route row nor a DurationSample row is written. -/
theorem C6_integrity_violation (db : DB) (s d : String) (leg : Leg)
    (rest : List Leg) (t : ℚ) (r1 r2 : RouteRow) (tl : List RouteRow)
    (hm : routeMatches db.route s d = r1 :: r2 :: tl)
    (hdit : leg.duration_in_traffic ≠ none) :
    resolveRoute db s d leg.duration = .error .DataIntegrityError ∧
    runOnce db s d (leg :: rest) t = .error .DataIntegrityError ∧
    runCommittedStates db s d (leg :: rest) t = [db] := by
  cases hv : leg.duration_in_traffic with
  | none => exact absurd hv hdit
  | some dit =>
    refine ⟨?_, ?_, ?_⟩
    · unfold resolveRoute
      rw [hm]
    · simp only [runOnce, resolveRoute]
      rw [hv, hm]
    · simp only [runCommittedStates]
      rw [hv, hm]

/-- Witness for C6: a store seeded with two rows both matching
("Home", "Work") case-insensitively; the run aborts with
`DataIntegrityError` and commits nothing. -/
theorem C6_integrity_violation_witness :
    resolveRoute ⟨[⟨0, "Home", "Work", 100⟩, ⟨1, "home", "WORK", 50⟩], []⟩
        "Home" "Work" (100 : ℚ) = .error .DataIntegrityError ∧
    runOnce ⟨[⟨0, "Home", "Work", 100⟩, ⟨1, "home", "WORK", 50⟩], []⟩
        "Home" "Work" [⟨100, some 200⟩] 5 = .error .DataIntegrityError ∧
    runCommittedStates ⟨[⟨0, "Home", "Work", 100⟩, ⟨1, "home", "WORK", 50⟩], []⟩
        "Home" "Work" [⟨100, some 200⟩] 5 =
      [⟨[⟨0, "Home", "Work", 100⟩, ⟨1, "home", "WORK", 50⟩], []⟩] :=
  C6_integrity_violation ⟨[⟨0, "Home", "Work", 100⟩, ⟨1, "home", "WORK", 50⟩], []⟩
    "Home" "Work" ⟨100, some 200⟩ [] 5 ⟨0, "Home", "Work", 100⟩ ⟨1, "home", "WORK", 50⟩ []
    (by decide) (by decide)

/-- C7: an empty upstream result makes the run terminate with
`EmptyResultError` before any store write: the committed state sequence is
the singleton pre-run state, so Route and DurationSample contents (hence
counts) are unchanged. -/
theorem C7_empty_result (db : DB) (s d : String) (t : ℚ) :
    runOnce db s d [] t = .error .EmptyResultError ∧
    runCommittedStates db s d [] t = [db] :=
  ⟨rfl, rfl⟩

/-- C8: record appends exactly one DurationSample row (the length grows by
one and the route table is untouched); it deduplicates nothing and updates
nothing in place, so two identical calls leave two duplicate rows, and two
calls with the same route id but different timestamps leave two distinct
rows, both retrievable, neither overwriting the other. -/
theorem C8_append_only (db : DB) (i : Int) (t t' v v' : ℚ) (hne : t ≠ t') :
    (record db i t v).track_duration = db.track_duration ++ [⟨i, t, v⟩] ∧
    (record db i t v).route = db.route ∧
    (record db i t v).track_duration.length = db.track_duration.length + 1 ∧
    (record (record db i t v) i t v).track_duration =
      db.track_duration ++ [⟨i, t, v⟩, ⟨i, t, v⟩] ∧
    (⟨i, t, v⟩ : SampleRow) ∈ (record (record db i t v) i t' v').track_duration ∧
    (⟨i, t', v'⟩ : SampleRow) ∈ (record (record db i t v) i t' v').track_duration ∧
    (⟨i, t, v⟩ : SampleRow) ≠ ⟨i, t', v'⟩ := by
  refine ⟨rfl, rfl, by simp [record], by simp [record], by simp [record],
    by simp [record], fun hc => hne ?_⟩
  exact congrArg SampleRow.time hc

/-- Witness for C8: the theorem applied to an empty store, route id 0 and
timestamps 1 and 2. -/
theorem C8_append_only_witness :
    (record ⟨[], []⟩ 0 1 9).track_duration = [] ++ [⟨0, 1, 9⟩] ∧
    (record ⟨[], []⟩ 0 1 9).route = [] ∧
    (record ⟨[], []⟩ 0 1 9).track_duration.length =
      List.length ([] : List SampleRow) + 1 ∧
    (record (record ⟨[], []⟩ 0 1 9) 0 1 9).track_duration =
      [] ++ [⟨0, 1, 9⟩, ⟨0, 1, 9⟩] ∧
    (⟨0, 1, 9⟩ : SampleRow) ∈ (record (record ⟨[], []⟩ 0 1 9) 0 2 8).track_duration ∧
    (⟨0, 2, 8⟩ : SampleRow) ∈ (record (record ⟨[], []⟩ 0 1 9) 0 2 8).track_duration ∧
    (⟨0, 1, 9⟩ : SampleRow) ≠ ⟨0, 2, 8⟩ :=
  C8_append_only ⟨[], []⟩ 0 1 2 9 8 (by decide)

/-- C9: the non-empty precondition on start and destination is nowhere
enforced: resolve with empty-string arguments neither fails nor rejects
the input; on zero matches it allocates the next id and persists a Route
row for the empty pair exactly as for any other pair, and a full run on an
empty store with empty addresses writes both rows. -/
theorem C9_empty_strings_allowed (db : DB) (f : ℚ)
    (h : routeMatches db.route "" "" = []) :
    resolveRoute db "" "" f =
      .ok (nextTrackId db.route, insertRoute db (nextTrackId db.route) "" "" f) ∧
    (insertRoute db (nextTrackId db.route) "" "" f).route =
      db.route ++ [⟨nextTrackId db.route, "", "", f⟩] ∧
    (∀ t dv dur, runOnce ⟨[], []⟩ "" "" [⟨dur, some dv⟩] t =
      .ok ⟨[⟨0, "", "", dur⟩], [⟨0, t, dv⟩]⟩) := by
  refine ⟨?_, rfl, fun t dv dur => rfl⟩
  unfold resolveRoute
  rw [h]

/-- Witness for C9: the theorem applied to a store that already holds one
non-empty route; the empty pair is looked up, allocated id 1 and
persisted. -/
theorem C9_empty_strings_allowed_witness :
    resolveRoute ⟨[⟨0, "A", "B", 1⟩], []⟩ "" "" 9 =
      .ok (nextTrackId [⟨0, "A", "B", 1⟩],
           insertRoute ⟨[⟨0, "A", "B", 1⟩], []⟩ (nextTrackId [⟨0, "A", "B", 1⟩]) "" "" 9) :=
  (C9_empty_strings_allowed ⟨[⟨0, "A", "B", 1⟩], []⟩ 9 (by decide)).1

/-- C10: one timestamp is computed per run; the directions request departs
at its integer truncation and the stored sample carries the exact same
value, so the stored sample time differs from the requested departure time
by strictly less than one second. -/
theorem C10_timestamp_consistency (db : DB) (s d : String) (res : List Leg)
    (t : ℚ) (db' : DB) (ht : 0 ≤ t) (h : runOnce db s d res t = .ok db') :
    ∃ row : SampleRow, db'.track_duration = db.track_duration ++ [row] ∧
      row.time = t ∧
      (mkDirectionsRequest s d t).departure_time = ⌊t⌋ ∧
      |row.time - ((mkDirectionsRequest s d t).departure_time : ℚ)| < 1 := by
  cases res with
  | nil => simp [runOnce] at h
  | cons leg rest =>
    simp only [runOnce] at h
    cases hdit : leg.duration_in_traffic with
    | none => rw [hdit] at h; simp at h
    | some dit =>
      rw [hdit] at h
      cases hres : resolveRoute db s d leg.duration with
      | error e => rw [hres] at h; simp at h
      | ok p =>
        obtain ⟨tid, db1⟩ := p
        rw [hres] at h
        simp only [Except.ok.injEq] at h
        refine ⟨⟨tid, t, dit⟩, ?_, rfl, ?_, ?_⟩
        · rw [← h]
          show db1.track_duration ++ [⟨tid, t, dit⟩] = db.track_duration ++ [⟨tid, t, dit⟩]
          rw [resolveRoute_track_duration hres]
        · show pyInt t = ⌊t⌋
          unfold pyInt
          rw [if_pos ht]
        · show |t - ((pyInt t : Int) : ℚ)| < 1
          unfold pyInt
          rw [if_pos ht]
          have hfr : t - ((⌊t⌋ : Int) : ℚ) = Int.fract t := rfl
          rw [hfr, abs_of_nonneg (Int.fract_nonneg t)]
          exact Int.fract_lt_one t

/-- Witness for C10: a concrete successful run at timestamp 5; the stored
sample time is 5 and the requested departure time is its truncation. -/
theorem C10_timestamp_consistency_witness :
    ∃ row : SampleRow,
      (⟨[⟨0, "Home", "Work", 100⟩], [⟨0, 5, 200⟩]⟩ : DB).track_duration =
        (⟨[], []⟩ : DB).track_duration ++ [row] ∧
      row.time = 5 ∧
      (mkDirectionsRequest "Home" "Work" 5).departure_time = ⌊(5 : ℚ)⌋ ∧
      |row.time - ((mkDirectionsRequest "Home" "Work" 5).departure_time : ℚ)| < 1 :=
  C10_timestamp_consistency ⟨[], []⟩ "Home" "Work" [⟨100, some 200⟩] 5
    ⟨[⟨0, "Home", "Work", 100⟩], [⟨0, 5, 200⟩]⟩ (by decide) (by decide)

end Dur2work
